import Mathlib

/-!
Shallow embedding of `garmin_export.py` (a Garmin Connect export script).

Strings of the Python program are modelled as `List Char`; the filesystem of
the output directory is an explicit state (an association list of file names
to file contents plus a flag for the directory's existence); the external
`garminconnect` client is a record of operations returning `Except` values,
one constructor of `GError` per exception class the script distinguishes.
Python's `datetime.strptime` for the two formats the script uses is modelled
by explicit character-level parsers that accept exactly the strings CPython's
`_strptime` regexes plus the `datetime` constructor accept (4-digit year,
1-2 digit other fields with their range checks, full-string match, real
calendar dates with leap years).
-/

/-- Python strings are modelled as lists of characters. -/
abbrev Str := List Char

deriving instance DecidableEq for Except

/-- A `datetime.datetime` value as produced by the script's two `strptime`
calls (no timezone, microseconds always zero). -/
structure DateTime where
  year : Nat
  month : Nat
  day : Nat
  hour : Nat
  minute : Nat
  second : Nat
deriving DecidableEq, Repr

/-- A numeric key that orders `DateTime` values; on the field ranges that
`datetime` admits (month ≤ 12, day ≤ 31, hour ≤ 23, minute, second ≤ 59)
it coincides with Python's lexicographic datetime comparison. -/
def DateTime.key (t : DateTime) : Nat :=
  ((((t.year * 13 + t.month) * 32 + t.day) * 24 + t.hour) * 60 + t.minute) * 60 + t.second

/-- The value `datetime(1970, 1, 1)`: what `strptime` gives to the default
string `1970-01-01 00:00:00` used by the incremental filter. -/
def epochDT : DateTime := ⟨1970, 1, 1, 0, 0, 0⟩

/-- Numeric value of a digit character. -/
def digitVal (c : Char) : Nat := c.toNat - 48

/-- Field `%Y` of CPython `_strptime`: exactly four digits. Returns the value and
the unconsumed rest. -/
def parse4Digits : Str → Option (Nat × Str)
  | a :: b :: c :: d :: rest =>
    if a.isDigit && b.isDigit && c.isDigit && d.isDigit then
      some (((digitVal a * 10 + digitVal b) * 10 + digitVal c) * 10 + digitVal d, rest)
    else none
  | _ => none

/-- A 1-2 digit numeric field (`%m`, `%d`, `%H`, `%M`, `%S`): two digits when
available, else one. CPython's regexes restrict ranges and backtrack; since
every such field is followed by a non-digit (separator or end), greedy
two-digit reading plus the semantic range checks below accepts exactly the
same strings. -/
def parse2Digits : Str → Option (Nat × Str)
  | a :: b :: rest =>
    if a.isDigit && b.isDigit then some (digitVal a * 10 + digitVal b, rest)
    else if a.isDigit then some (digitVal a, b :: rest)
    else none
  | [a] => if a.isDigit then some (digitVal a, ([] : Str)) else none
  | [] => none

/-- Gregorian leap year, as `datetime` uses. -/
def isLeap (y : Nat) : Bool := y % 4 == 0 && (y % 100 != 0 || y % 400 == 0)

/-- Number of days in a month, as `datetime` validates. -/
def daysInMonth (y m : Nat) : Nat :=
  if m == 2 then (if isLeap y then 29 else 28)
  else if m == 4 || m == 6 || m == 9 || m == 11 then 30
  else 31

/-- The validity checks the `datetime` constructor performs on a parsed
year-month-day (year ≥ 1; the 4-digit parse already bounds year ≤ 9999). -/
def validYmd (y m d : Nat) : Bool :=
  decide (1 ≤ y) && decide (1 ≤ m) && decide (m ≤ 12)
    && decide (1 ≤ d) && decide (d ≤ daysInMonth y m)

/-- Parse the `%Y-%m-%d` portion, returning the numbers and the rest of the
string. -/
def parseYmdCore (cs : Str) : Option ((Nat × Nat × Nat) × Str) :=
  match parse4Digits cs with
  | none => none
  | some (y, r1) =>
    match r1 with
    | '-' :: r2 =>
      match parse2Digits r2 with
      | none => none
      | some (m, r3) =>
        match r3 with
        | '-' :: r4 =>
          match parse2Digits r4 with
          | none => none
          | some (d, r5) => some ((y, m, d), r5)
        | _ => none
    | _ => none

/-- Model of `datetime.strptime(s, '%Y-%m-%d')` — `None` models `ValueError`.
The whole string must be consumed ("unconverted data remains" otherwise). -/
def strptimeYmd (cs : Str) : Option DateTime :=
  match parseYmdCore cs with
  | some ((y, m, d), []) =>
    if validYmd y m d then some ⟨y, m, d, 0, 0, 0⟩ else none
  | _ => none

/-- Drop leading whitespace (the tail of `\s+` in the compiled format). -/
def skipWs : Str → Str
  | [] => []
  | c :: rest => if c.isWhitespace then skipWs rest else c :: rest

/-- Model of `datetime.strptime(s, '%Y-%m-%d %H:%M:%S')` — `None` models `ValueError`.
The literal space of the format becomes `\s+` in CPython's compiled regex,
hence one-or-more whitespace characters here. Seconds 60-61 pass the regex
but are rejected by the `datetime` constructor, so the net bound is ≤ 59. -/
def strptimeYmdHMS (cs : Str) : Option DateTime :=
  match parseYmdCore cs with
  | none => none
  | some ((y, m, d), r) =>
    match r with
    | [] => none
    | c :: r1 =>
      if c.isWhitespace then
        match parse2Digits (skipWs r1) with
        | none => none
        | some (hh, r3) =>
          match r3 with
          | ':' :: r4 =>
            match parse2Digits r4 with
            | none => none
            | some (mi, r5) =>
              match r5 with
              | ':' :: r6 =>
                match parse2Digits r6 with
                | some (s, []) =>
                  if validYmd y m d && decide (hh ≤ 23) && decide (mi ≤ 59)
                      && decide (s ≤ 59) then
                    some ⟨y, m, d, hh, mi, s⟩
                  else none
                | _ => none
              | _ => none
          | _ => none
      else none

/-- Two-digit zero-padded decimal rendering (`%m`, `%d` of `strftime`). -/
def pad2 (n : Nat) : Str := [Char.ofNat (48 + n / 10 % 10), Char.ofNat (48 + n % 10)]

/-- Four-digit zero-padded decimal rendering (`%Y` of `strftime` for the
years ≤ 9999 that `strptime` produces). -/
def pad4 (n : Nat) : Str :=
  [Char.ofNat (48 + n / 1000 % 10), Char.ofNat (48 + n / 100 % 10),
   Char.ofNat (48 + n / 10 % 10), Char.ofNat (48 + n % 10)]

/-- Rendering `date_obj.strftime('%Y-%m-%d')`. -/
def formatYmd (t : DateTime) : Str := pad4 t.year ++ '-' :: pad2 t.month ++ '-' :: pad2 t.day

/-- Function `get_date_string` (garmin_export.py lines 27-33): parse the activity
start time, format the date part, fall back to the literal sentinel. -/
def get_date_string (start_time : Str) : Str :=
  match strptimeYmdHMS start_time with
  | some t => formatYmd t
  | none => "unknown_date".data

/-- The `invalid_chars` string of `sanitize_filename`. -/
def invalid_chars : Str := "<>:\"/\\|?*".data

/-- Function `sanitize_filename` (lines 35-44). Each Python `str.replace(c, '-')` over
a single character is a character-wise map; the sequential replaces over the
nine distinct invalid characters equal one membership-test map because the
replacement `-` is itself never an invalid character. Then spaces become
underscores, and the result is truncated to 50 characters, with the
`Unnamed` placeholder when the (transformed) name is empty. -/
def sanitize_filename (name : Str) : Str :=
  let n1 := name.map (fun c => if c ∈ invalid_chars then '-' else c)
  let n2 := n1.map (fun c => if c = ' ' then '_' else c)
  if n2 = [] then "Unnamed".data else n2.take 50

/-- The `name_part` local of every download function:
`f'_(name)' if activity_name else ''`. -/
def name_part (activity_name : Str) : Str :=
  if activity_name = [] then [] else '_' :: activity_name

/-- The filename construction shared by all download functions:
`(date_str)(name_part)_(activity_id).(ext)`. -/
def encode (date_str activity_name activity_id ext : Str) : Str :=
  date_str ++ name_part activity_name ++ '_' :: activity_id ++ '.' :: ext

/-- The date decoding of `get_last_activity_date` (lines 141-142):
`file.name.split('_')[0]` — the characters before the first underscore,
or the whole name when there is none — parsed as `%Y-%m-%d`. -/
def decode_date (fname : Str) : Option DateTime :=
  strptimeYmd (fname.takeWhile (fun c => decide (c ≠ '_')))

/-- Content of a downloaded payload or an on-disk file, classified by how
the script's decoders treat it: `zipA` is data `zipfile.ZipFile` opens as an
archive (with its named entries), `text` is data that decodes as text,
`bin` is any other byte string (bytes abstracted as `List Nat`). -/
inductive Data where
  | zipA (entries : List (Str × List Nat))
  | bin (b : List Nat)
  | text (s : Str)
deriving DecidableEq, Repr

/-- The exception classes the script distinguishes:
`GarminConnectAuthenticationError`, `GarminConnectConnectionError`, and
every other `Exception`. -/
inductive GError where
  | auth (msg : Str)
  | conn (msg : Str)
  | other (msg : Str)
deriving DecidableEq, Repr

/-- The `client.ActivityDownloadFormat` tags used by the script. -/
inductive DlFmt where
  | gpx
  | tcx
  | original
deriving DecidableEq, Repr

/-- The fields of an activity record that the script reads. `Option` models
a possibly missing dictionary key (read via `.get` with a default). -/
structure Activity where
  activityId : Str
  activityName : Option Str
  startTimeLocal : Option Str
deriving DecidableEq, Repr

/-- The external garminconnect client at the boundary the script consumes:
each operation either returns a value or raises (`Except.error`). -/
structure Client where
  loginResult : Except GError Unit
  getActivities : Nat → Nat → Except GError (List Activity)
  downloadActivity : Str → DlFmt → Except GError Data
  getActivityDetails : Str → Except GError Str
  getActivity : Str → Except GError Str

/-- The output directory's state: its files (name, content) and whether the
directory itself exists. -/
structure FS where
  files : List (Str × Data)
  outDirExists : Bool
deriving DecidableEq, Repr

/-- Association-list lookup of a file's content by name. -/
def lookupFile : List (Str × Data) → Str → Option Data
  | [], _ => none
  | (m, d) :: rest, n => if m = n then some d else lookupFile rest n

/-- Content of the file named `n`, if present. -/
def FS.lookup (fs : FS) (n : Str) : Option Data := lookupFile fs.files n

/-- Model of `write_bytes` / `write_text`: (over)write one file. -/
def FS.writeFile (fs : FS) (n : Str) (d : Data) : FS :=
  ⟨(n, d) :: fs.files.filter (fun p => decide (p.1 ≠ n)), fs.outDirExists⟩

/-- Model of `Path.unlink`: remove one file. -/
def FS.unlink (fs : FS) (n : Str) : FS :=
  ⟨fs.files.filter (fun p => decide (p.1 ≠ n)), fs.outDirExists⟩

/-- Model of `Path.rename`: move a file, overwriting any existing target (POSIX).
Every rename the script performs is of a file it has just written, so the
missing-source fallback is never reached in the modelled runs. -/
def FS.rename (fs : FS) (old new : Str) : FS :=
  match fs.lookup old with
  | none => fs
  | some d => (fs.unlink old).writeFile new d

/-- Model of `mkdir(parents=True, exist_ok=True)` on the output directory. -/
def FS.mkdirOut (fs : FS) : FS := ⟨fs.files, true⟩

/-- Function `download_gpx` (lines 46-52): fetch GPX bytes and write them verbatim.
Returns the updated filesystem and the result (`ok` path or the raised
error); state already changed before an exception persists. -/
def download_gpx (client : Client) (activity_id : Str) (fs : FS)
    (date_str activity_name : Str) : FS × Except GError Str :=
  let filename := encode date_str activity_name activity_id "gpx".data
  match client.downloadActivity activity_id DlFmt.gpx with
  | .error e => (fs, .error e)
  | .ok data => (fs.writeFile filename data, .ok filename)

/-- Function `download_tcx` (lines 54-60): fetch TCX bytes, decode as UTF-8 text and
write the text; a payload that does not decode raises
(`UnicodeDecodeError`, modelled by the non-`text` cases). -/
def download_tcx (client : Client) (activity_id : Str) (fs : FS)
    (date_str activity_name : Str) : FS × Except GError Str :=
  let filename := encode date_str activity_name activity_id "tcx".data
  match client.downloadActivity activity_id DlFmt.tcx with
  | .error e => (fs, .error e)
  | .ok (Data.text s) => (fs.writeFile filename (Data.text s), .ok filename)
  | .ok _ => (fs, .error (GError.other "UnicodeDecodeError".data))

/-- Function `download_fit` (lines 62-85): write the ORIGINAL payload under the
`.zip` name; if it opens as an archive, extract the first entry (when one
exists) and rename it to the `.fit` name, then unlink the archive; if it is
not an archive (`BadZipFile`), rename the `.zip` file itself to `.fit`. -/
def download_fit (client : Client) (activity_id : Str) (fs : FS)
    (date_str activity_name : Str) : FS × Except GError Str :=
  let zip_filename := encode date_str activity_name activity_id "zip".data
  match client.downloadActivity activity_id DlFmt.original with
  | .error e => (fs, .error e)
  | .ok data =>
    let fs1 := fs.writeFile zip_filename data
    let final_filename := encode date_str activity_name activity_id "fit".data
    match data with
    | Data.zipA entries =>
      match entries with
      | [] => (fs1.unlink zip_filename, .ok final_filename)
      | (ename, ebytes) :: _ =>
        let fs2 := fs1.writeFile ename (Data.bin ebytes)
        let fs3 := fs2.rename ename final_filename
        (fs3.unlink zip_filename, .ok final_filename)
    | _ => (fs1.rename zip_filename final_filename, .ok final_filename)

/-- Function `download_json` (lines 87-99): write the details payload, then fetch and
write the full activity payload (`(stem)_full.json`); the details file
persists even when the second fetch raises. Payloads are modelled as their
serialized JSON text. -/
def download_json (client : Client) (activity_id : Str) (fs : FS)
    (date_str activity_name : Str) : FS × Except GError Str :=
  let filename := encode date_str activity_name activity_id "json".data
  match client.getActivityDetails activity_id with
  | .error e => (fs, .error e)
  | .ok details =>
    let fs1 := fs.writeFile filename (Data.text details)
    let json_full := date_str ++ name_part activity_name ++ '_' :: activity_id
      ++ "_full.json".data
    match client.getActivity activity_id with
    | .error e => (fs1, .error e)
    | .ok full => (fs1.writeFile json_full (Data.text full), .ok filename)

/-- The format dispatch inside `download_activity`'s `try` block (lines
112-121). An unrecognized format leaves `filename` unbound and the later
use raises `NameError` (argparse prevents this in practice). -/
def dispatchDownload (client : Client) (activity_id : Str) (fs : FS)
    (date_str safe_name format_type : Str) : FS × Except GError Str :=
  if format_type = "gpx".data then download_gpx client activity_id fs date_str safe_name
  else if format_type = "tcx".data then download_tcx client activity_id fs date_str safe_name
  else if format_type = "fit".data then download_fit client activity_id fs date_str safe_name
  else if format_type = "json".data then download_json client activity_id fs date_str safe_name
  else (fs, .error (GError.other "NameError".data))

/-- Function `download_activity` (lines 101-128): derive date string and sanitized
name, dispatch on the format, and catch any exception at this boundary —
`True` on success, `False` on failure, never re-raising. Filesystem changes
made before an exception persist. -/
def download_activity (client : Client) (a : Activity) (fs : FS)
    (format_type : Str) : FS × Bool :=
  let activity_name := a.activityName.getD "Unnamed Activity".data
  let start_time := a.startTimeLocal.getD "unknown time".data
  let date_str := get_date_string start_time
  let safe_name := sanitize_filename activity_name
  match dispatchDownload client a.activityId fs date_str safe_name format_type with
  | (fs2, .ok _) => (fs2, true)
  | (fs2, .error _) => (fs2, false)

/-- Python `max` over a nonempty list of datetimes: fold keeping the current
maximum, preferring the earlier element on ties. -/
def maxDate : DateTime → List DateTime → DateTime
  | acc, [] => acc
  | acc, d :: ds => maxDate (if acc.key < d.key then d else acc) ds

/-- Function `get_last_activity_date` (lines 130-149). The directory listing is
`some names` when `glob` succeeds and `none` when it raises (missing or
unreadable directory) — the surrounding `try` turns any such exception into
`None`. Files are those matching `*.ext`; each contributes its decoded date
when the name parses, and the maximum decoded date is returned. -/
def get_last_activity_date (listing : Option (List Str)) (format_ext : Str) :
    Option DateTime :=
  match listing with
  | none => none
  | some names =>
    let files := names.filter (fun f => format_ext.isSuffixOf f)
    if files = [] then none
    else
      match files.filterMap decode_date with
      | [] => none
      | d :: ds => some (maxDate d ds)

/-- The timestamp the incremental filter parses for one activity:
`a.get('startTimeLocal', '1970-01-01 00:00:00')` fed to `strptime`. -/
def activityDt (a : Activity) : Option DateTime :=
  strptimeYmdHMS (a.startTimeLocal.getD "1970-01-01 00:00:00".data)

/-- The filtering list comprehension of `main` (lines 263-266), evaluated
left to right: an unparseable present timestamp raises `ValueError`
(`Except.error`), which the surrounding `try` of `main` turns into an
aborted run; otherwise an activity is kept exactly when its parsed
timestamp is strictly later than the watermark. -/
def filterActivities (last : DateTime) : List Activity → Except GError (List Activity)
  | [] => .ok []
  | a :: rest =>
    match activityDt a with
    | none => .error (GError.other "ValueError".data)
    | some dt =>
      match filterActivities last rest with
      | .error e => .error e
      | .ok l => .ok (if last.key < dt.key then a :: l else l)

/-- The download loop of `main` (lines 275-279): process every activity in
order, threading the filesystem, counting successes. -/
def runLoop (client : Client) (fmt : Str) : List Activity → FS → FS × Nat
  | [], fs => (fs, 0)
  | a :: rest, fs =>
    let (fs1, ok1) := download_activity client a fs fmt
    let (fs2, n) := runLoop client fmt rest fs1
    (fs2, (if ok1 then 1 else 0) + n)

/-- The per-activity success flags of one run of the loop, in order. -/
def outcomeList (client : Client) (fmt : Str) : List Activity → FS → List Bool
  | [], _ => []
  | a :: rest, fs =>
    let (fs1, ok1) := download_activity client a fs fmt
    ok1 :: outcomeList client fmt rest fs1

/-- The pipeline parameters `main` consumes after argument parsing:
activity count, format name, and whether `--since-last` is in effect
(`--all` clears it). -/
structure Args where
  count : Nat
  fmt : Str
  since_last : Bool

/-- Outcome of one run of `main`: exit status, final filesystem, number of
activities attempted by the loop, number that succeeded. -/
structure RunResult where
  exitCode : Nat
  fs : FS
  attempted : Nat
  succeeded : Nat
deriving DecidableEq, Repr

/-- The core of `main` (lines 203-304): create the output directory, resolve
the watermark when `--since-last` is active, log in, fetch the activity
list, return successfully on an empty list, filter by the watermark (a
`ValueError` there is caught by the outer `except` and aborts with status
1), return successfully when filtering empties the list, else run the
download loop and report successes out of attempted. Authentication,
connection, and list-fetch errors are caught at top level with status 1. -/
def mainRun (args : Args) (client : Client) (fs0 : FS) : RunResult :=
  let fs1 := fs0.mkdirOut
  let last : Option DateTime :=
    if args.since_last then
      get_last_activity_date (some (fs1.files.map Prod.fst)) ('.' :: args.fmt)
    else none
  match client.loginResult with
  | .error _ => ⟨1, fs1, 0, 0⟩
  | .ok _ =>
    match client.getActivities 0 args.count with
    | .error _ => ⟨1, fs1, 0, 0⟩
    | .ok activities =>
      if activities = [] then ⟨0, fs1, 0, 0⟩
      else
        match last with
        | some wm =>
          match filterActivities wm activities with
          | .error _ => ⟨1, fs1, 0, 0⟩
          | .ok kept =>
            if kept = [] then ⟨0, fs1, 0, 0⟩
            else
              let (fs2, n) := runLoop client args.fmt kept fs1
              ⟨0, fs2, kept.length, n⟩
        | none =>
          let (fs2, n) := runLoop client args.fmt activities fs1
          ⟨0, fs2, activities.length, n⟩

theorem lookupFile_cons (a : Str) (b : Data) (rest : List (Str × Data)) (n : Str) :
    lookupFile ((a, b) :: rest) n = if a = n then some b else lookupFile rest n := rfl

theorem lookupFile_filter_self (l : List (Str × Data)) (n : Str) :
    lookupFile (l.filter (fun p => decide (p.1 ≠ n))) n = none := by
  induction l with
  | nil => rfl
  | cons p rest ih =>
    obtain ⟨a, b⟩ := p
    rw [List.filter_cons]
    by_cases h : a = n
    · rw [if_neg (by simp [h])]
      exact ih
    · rw [if_pos (by simp [h]), lookupFile_cons, if_neg h]
      exact ih

theorem lookupFile_filter_ne (l : List (Str × Data)) (n m : Str) (h : m ≠ n) :
    lookupFile (l.filter (fun p => decide (p.1 ≠ n))) m = lookupFile l m := by
  induction l with
  | nil => rfl
  | cons p rest ih =>
    obtain ⟨a, b⟩ := p
    rw [List.filter_cons, lookupFile_cons]
    by_cases ha : a = n
    · rw [if_neg (by simp [ha])]
      rw [if_neg (by rw [ha]; exact Ne.symm h)]
      exact ih
    · rw [if_pos (by simp [ha]), lookupFile_cons]
      by_cases ham : a = m
      · rw [if_pos ham, if_pos ham]
      · rw [if_neg ham, if_neg ham]
        exact ih

theorem FS.lookup_writeFile_self (fs : FS) (n : Str) (d : Data) :
    (fs.writeFile n d).lookup n = some d := by
  simp only [FS.lookup, FS.writeFile]
  rw [lookupFile_cons, if_pos rfl]

theorem FS.lookup_writeFile_ne (fs : FS) (n m : Str) (d : Data) (h : m ≠ n) :
    (fs.writeFile n d).lookup m = fs.lookup m := by
  simp only [FS.lookup, FS.writeFile]
  rw [lookupFile_cons, if_neg (Ne.symm h)]
  exact lookupFile_filter_ne fs.files n m h

theorem FS.lookup_unlink_self (fs : FS) (n : Str) : (fs.unlink n).lookup n = none := by
  simp only [FS.lookup, FS.unlink]
  exact lookupFile_filter_self fs.files n

theorem FS.lookup_unlink_ne (fs : FS) (n m : Str) (h : m ≠ n) :
    (fs.unlink n).lookup m = fs.lookup m := by
  simp only [FS.lookup, FS.unlink]
  exact lookupFile_filter_ne fs.files n m h

theorem encode_ne_of_ext_ne (d n i x y : Str) (h : x ≠ y) :
    encode d n i x ≠ encode d n i y := by
  intro he
  apply h
  simpa [encode, List.append_right_inj, List.cons.injEq] using he

/-- C4: for the fit format, when the downloaded bytes open as an archive
with a first entry, that entry's bytes end up under the canonical
`(date)_(name)_(id).fit` name and the `.zip` file is gone; when the bytes
are not an archive, the written `.zip` file is renamed to the canonical
`.fit` name (no extraction); in both cases the downloader returns the
canonical path normally, not an error. -/
theorem fit_download_archive_or_raw (client : Client)
    (activity_id date_str activity_name : Str) (fs : FS)
    (en : Str) (eb : List Nat) (tl : List (Str × List Nat)) (b : List Nat) :
    (client.downloadActivity activity_id DlFmt.original = .ok (Data.zipA ((en, eb) :: tl)) →
      (download_fit client activity_id fs date_str activity_name).2 =
          .ok (encode date_str activity_name activity_id "fit".data) ∧
      (download_fit client activity_id fs date_str activity_name).1.lookup
          (encode date_str activity_name activity_id "fit".data) = some (Data.bin eb) ∧
      (download_fit client activity_id fs date_str activity_name).1.lookup
          (encode date_str activity_name activity_id "zip".data) = none)
    ∧
    (client.downloadActivity activity_id DlFmt.original = .ok (Data.bin b) →
      (download_fit client activity_id fs date_str activity_name).2 =
          .ok (encode date_str activity_name activity_id "fit".data) ∧
      (download_fit client activity_id fs date_str activity_name).1.lookup
          (encode date_str activity_name activity_id "fit".data) = some (Data.bin b) ∧
      (download_fit client activity_id fs date_str activity_name).1.lookup
          (encode date_str activity_name activity_id "zip".data) = none) := by
  have hzf : encode date_str activity_name activity_id "fit".data ≠
      encode date_str activity_name activity_id "zip".data :=
    encode_ne_of_ext_ne _ _ _ _ _ (by decide)
  constructor
  · intro h
    refine ⟨?_, ?_, ?_⟩
    · simp [download_fit, h]
    · simp only [download_fit, h]
      rw [FS.lookup_unlink_ne _ _ _ hzf]
      simp only [FS.rename, FS.lookup_writeFile_self]
    · simp only [download_fit, h]
      exact FS.lookup_unlink_self _ _
  · intro h
    refine ⟨?_, ?_, ?_⟩
    · simp [download_fit, h]
    · simp only [download_fit, h]
      simp only [FS.rename, FS.lookup_writeFile_self]
    · simp only [download_fit, h]
      simp only [FS.rename, FS.lookup_writeFile_self]
      rw [FS.lookup_writeFile_ne _ _ _ _ hzf.symm, FS.lookup_unlink_self]

/-- Fixture for the C4 witness: a client whose ORIGINAL download is a valid
archive with one entry. -/
def c4ClientZip : Client :=
  ⟨.ok (), fun _ _ => .ok [], fun _ _ => .ok (Data.zipA [("12345.fit".data, [7])]),
   fun _ => .error (GError.other []), fun _ => .error (GError.other [])⟩

/-- Fixture for the C4 witness: a client whose ORIGINAL download is raw
non-archive bytes. -/
def c4ClientBin : Client :=
  ⟨.ok (), fun _ _ => .ok [], fun _ _ => .ok (Data.bin [3]),
   fun _ => .error (GError.other []), fun _ => .error (GError.other [])⟩

theorem fit_download_archive_or_raw_witness :
    (c4ClientZip.downloadActivity "9".data DlFmt.original =
        .ok (Data.zipA [("12345.fit".data, [7])])) ∧
    (download_fit c4ClientZip "9".data ⟨[], true⟩ "2024-03-15".data "Run".data).1.lookup
        (encode "2024-03-15".data "Run".data "9".data "fit".data) = some (Data.bin [7]) ∧
    (download_fit c4ClientBin "9".data ⟨[], true⟩ "2024-03-15".data "Run".data).1.lookup
        (encode "2024-03-15".data "Run".data "9".data "fit".data) = some (Data.bin [3]) :=
  ⟨rfl,
   ((fit_download_archive_or_raw c4ClientZip "9".data "2024-03-15".data "Run".data
      ⟨[], true⟩ "12345.fit".data [7] [] []).1 rfl).2.1,
   ((fit_download_archive_or_raw c4ClientBin "9".data "2024-03-15".data "Run".data
      ⟨[], true⟩ "12345.fit".data [7] [] [3]).2 rfl).2.1⟩

/-- C9: when the ORIGINAL download is a valid archive with an empty entry
list, no extraction happens and no `.fit` file is written (the canonical
path stays absent when it was absent before), yet the archive file is still
deleted, the downloader returns the canonical `.fit` path, and
`download_activity` counts the activity as a success. -/
theorem fit_empty_archive_success (client : Client)
    (activity_id date_str activity_name : Str) (fs : FS)
    (h : client.downloadActivity activity_id DlFmt.original = .ok (Data.zipA [])) :
    (download_fit client activity_id fs date_str activity_name).2 =
        .ok (encode date_str activity_name activity_id "fit".data) ∧
    (download_fit client activity_id fs date_str activity_name).1.lookup
        (encode date_str activity_name activity_id "zip".data) = none ∧
    (fs.lookup (encode date_str activity_name activity_id "fit".data) = none →
      (download_fit client activity_id fs date_str activity_name).1.lookup
          (encode date_str activity_name activity_id "fit".data) = none) ∧
    (∀ (a : Activity) (fs2 : FS), a.activityId = activity_id →
      (download_activity client a fs2 "fit".data).2 = true) := by
  have hzf : encode date_str activity_name activity_id "fit".data ≠
      encode date_str activity_name activity_id "zip".data :=
    encode_ne_of_ext_ne _ _ _ _ _ (by decide)
  refine ⟨?_, ?_, ?_, ?_⟩
  · simp [download_fit, h]
  · simp only [download_fit, h]
    exact FS.lookup_unlink_self _ _
  · intro hfresh
    simp only [download_fit, h]
    rw [FS.lookup_unlink_ne _ _ _ hzf, FS.lookup_writeFile_ne _ _ _ _ hzf]
    exact hfresh
  · intro a fs2 ha
    simp [download_activity, dispatchDownload, ha, download_fit, h]

/-- Fixture for the C9 witness: a client whose ORIGINAL download is a valid
archive with no entries. -/
def c9ClientEmptyZip : Client :=
  ⟨.ok (), fun _ _ => .ok [], fun _ _ => .ok (Data.zipA []),
   fun _ => .error (GError.other []), fun _ => .error (GError.other [])⟩

theorem fit_empty_archive_success_witness :
    (c9ClientEmptyZip.downloadActivity "9".data DlFmt.original = .ok (Data.zipA [])) ∧
    ((FS.mk [] true).lookup (encode "2024-03-15".data "Run".data "9".data "fit".data) = none) ∧
    (download_fit c9ClientEmptyZip "9".data ⟨[], true⟩ "2024-03-15".data "Run".data).1.lookup
        (encode "2024-03-15".data "Run".data "9".data "fit".data) = none ∧
    (download_activity c9ClientEmptyZip ⟨"9".data, none, none⟩ ⟨[], true⟩ "fit".data).2 = true :=
  ⟨rfl, rfl,
   (fit_empty_archive_success c9ClientEmptyZip "9".data "2024-03-15".data "Run".data
      ⟨[], true⟩ rfl).2.2.1 rfl,
   (fit_empty_archive_success c9ClientEmptyZip "9".data "2024-03-15".data "Run".data
      ⟨[], true⟩ rfl).2.2.2 ⟨"9".data, none, none⟩ ⟨[], true⟩ rfl⟩

theorem runLoop_eq_count (client : Client) (fmt : Str) :
    ∀ (acts : List Activity) (fs : FS),
      (runLoop client fmt acts fs).2 = (outcomeList client fmt acts fs).count true := by
  intro acts
  induction acts with
  | nil => intro fs; rfl
  | cons a rest ih =>
    intro fs
    rcases hd : download_activity client a fs fmt with ⟨fs1, ok1⟩
    rcases hr : runLoop client fmt rest fs1 with ⟨fs2, n⟩
    have h1 := ih fs1
    rw [hr] at h1
    simp only [runLoop, outcomeList, hd, hr, List.count_cons]
    cases ok1 <;> simp <;> omega

theorem outcomeList_length (client : Client) (fmt : Str) :
    ∀ (acts : List Activity) (fs : FS),
      (outcomeList client fmt acts fs).length = acts.length := by
  intro acts
  induction acts with
  | nil => intro fs; rfl
  | cons a rest ih =>
    intro fs
    rcases hd : download_activity client a fs fmt with ⟨fs1, ok1⟩
    simp only [outcomeList, hd, List.length_cons, ih fs1]

/-- C1: any exception inside the per-activity dispatch is caught there and
recorded as `false` (with the filesystem as the failed downloader left it);
a failing head activity changes neither the processing of the remaining
activities nor the success count; and the loop's final count is exactly the
number of per-activity successes over the whole attempted list. -/
theorem per_activity_failure_isolated :
    (∀ (client : Client) (fmt : Str) (acts : List Activity) (fs : FS),
      (runLoop client fmt acts fs).2 = (outcomeList client fmt acts fs).count true ∧
      (outcomeList client fmt acts fs).length = acts.length) ∧
    (∀ (client : Client) (fmt : Str) (a : Activity) (rest : List Activity) (fs : FS),
      (download_activity client a fs fmt).2 = false →
      runLoop client fmt (a :: rest) fs =
        runLoop client fmt rest (download_activity client a fs fmt).1) ∧
    (∀ (client : Client) (a : Activity) (fs : FS) (fmt : Str) (e : GError),
      (dispatchDownload client a.activityId fs
          (get_date_string (a.startTimeLocal.getD "unknown time".data))
          (sanitize_filename (a.activityName.getD "Unnamed Activity".data)) fmt).2 =
        .error e →
      download_activity client a fs fmt =
        ((dispatchDownload client a.activityId fs
            (get_date_string (a.startTimeLocal.getD "unknown time".data))
            (sanitize_filename (a.activityName.getD "Unnamed Activity".data)) fmt).1,
         false)) := by
  refine ⟨fun client fmt acts fs =>
    ⟨runLoop_eq_count client fmt acts fs, outcomeList_length client fmt acts fs⟩, ?_, ?_⟩
  · intro client fmt a rest fs h
    rcases hd : download_activity client a fs fmt with ⟨fs1, ok1⟩
    rw [hd] at h
    simp only at h
    subst h
    rcases hr : runLoop client fmt rest fs1 with ⟨fs2, n⟩
    simp [runLoop, hd, hr]
  · intro client a fs fmt e h
    rcases hdp : dispatchDownload client a.activityId fs
        (get_date_string (a.startTimeLocal.getD "unknown time".data))
        (sanitize_filename (a.activityName.getD "Unnamed Activity".data)) fmt
      with ⟨fs2, r⟩
    rw [hdp] at h
    simp only at h
    subst h
    simp [download_activity, hdp]

/-- Fixture for the C1 witness: a client every operation of which raises. -/
def c1ClientFail : Client :=
  ⟨.error (GError.conn []), fun _ _ => .error (GError.conn []),
   fun _ _ => .error (GError.other []), fun _ => .error (GError.other []),
   fun _ => .error (GError.other [])⟩

/-- Fixture for the C1 witness: an activity with no name and no timestamp. -/
def c1Act : Activity := ⟨"1".data, none, none⟩

theorem per_activity_failure_isolated_witness :
    (download_activity c1ClientFail c1Act ⟨[], true⟩ "gpx".data).2 = false ∧
    runLoop c1ClientFail "gpx".data (c1Act :: [c1Act]) ⟨[], true⟩ =
      runLoop c1ClientFail "gpx".data [c1Act]
        (download_activity c1ClientFail c1Act ⟨[], true⟩ "gpx".data).1 ∧
    (dispatchDownload c1ClientFail c1Act.activityId ⟨[], true⟩
        (get_date_string (c1Act.startTimeLocal.getD "unknown time".data))
        (sanitize_filename (c1Act.activityName.getD "Unnamed Activity".data))
        "gpx".data).2 = .error (GError.other []) ∧
    download_activity c1ClientFail c1Act ⟨[], true⟩ "gpx".data =
      ((dispatchDownload c1ClientFail c1Act.activityId ⟨[], true⟩
          (get_date_string (c1Act.startTimeLocal.getD "unknown time".data))
          (sanitize_filename (c1Act.activityName.getD "Unnamed Activity".data))
          "gpx".data).1, false) ∧
    (runLoop c1ClientFail "gpx".data [c1Act] ⟨[], true⟩).2 =
      (outcomeList c1ClientFail "gpx".data [c1Act] ⟨[], true⟩).count true :=
  ⟨by decide,
   per_activity_failure_isolated.2.1 c1ClientFail "gpx".data c1Act [c1Act] ⟨[], true⟩
     (by decide),
   by decide,
   per_activity_failure_isolated.2.2 c1ClientFail c1Act ⟨[], true⟩ "gpx".data
     (GError.other []) (by decide),
   (per_activity_failure_isolated.1 c1ClientFail "gpx".data [c1Act] ⟨[], true⟩).1⟩

/-- Fixture for C7: a client that logs in and returns an empty activity
list. -/
def c7ClientEmpty : Client :=
  ⟨.ok (), fun _ _ => .ok [], fun _ _ => .error (GError.other []),
   fun _ => .error (GError.other []), fun _ => .error (GError.other [])⟩

/-- C7 counterexample: with an empty activity list the run terminates with
status 0 and zero attempted and succeeded, but the filesystem is not left
untouched — the output directory is created when it was missing
(`output_dir.mkdir(parents=True, exist_ok=True)` runs before the fetch). -/
theorem empty_list_touches_fs_cex :
    (mainRun ⟨5, "fit".data, false⟩ c7ClientEmpty ⟨[], false⟩).exitCode = 0 ∧
    (mainRun ⟨5, "fit".data, false⟩ c7ClientEmpty ⟨[], false⟩).attempted = 0 ∧
    (mainRun ⟨5, "fit".data, false⟩ c7ClientEmpty ⟨[], false⟩).succeeded = 0 ∧
    (mainRun ⟨5, "fit".data, false⟩ c7ClientEmpty ⟨[], false⟩).fs ≠ (⟨[], false⟩ : FS) := by
  decide

/-- C7 (amended): when the client returns an empty activity list, the run
terminates with status 0, zero attempted and zero succeeded activities, and
writes, removes or modifies no file; the only filesystem effect is creating
the output directory if it was missing. -/
theorem empty_list_zero_result (args : Args) (client : Client) (fs : FS)
    (hl : client.loginResult = .ok ())
    (ha : client.getActivities 0 args.count = .ok []) :
    mainRun args client fs = ⟨0, fs.mkdirOut, 0, 0⟩ ∧ (fs.mkdirOut).files = fs.files := by
  refine ⟨?_, rfl⟩
  simp [mainRun, hl, ha]

theorem empty_list_zero_result_witness :
    c7ClientEmpty.loginResult = .ok () ∧
    c7ClientEmpty.getActivities 0 5 = .ok [] ∧
    mainRun ⟨5, "fit".data, false⟩ c7ClientEmpty ⟨[("a.fit".data, Data.bin [1])], false⟩ =
      ⟨0, FS.mkdirOut ⟨[("a.fit".data, Data.bin [1])], false⟩, 0, 0⟩ :=
  ⟨rfl, rfl,
   (empty_list_zero_result ⟨5, "fit".data, false⟩ c7ClientEmpty
      ⟨[("a.fit".data, Data.bin [1])], false⟩ rfl rfl).1⟩

/-- C8: an authentication or connection failure at login, or any error
raised while fetching the activity list, aborts the whole run with
termination status 1; no per-activity download happens (zero attempted,
zero succeeded) and no file is touched — only the output directory was
ensured beforehand. -/
theorem fatal_errors_abort_run :
    (∀ (args : Args) (client : Client) (fs : FS) (e : GError),
      client.loginResult = .error e →
      mainRun args client fs = ⟨1, fs.mkdirOut, 0, 0⟩) ∧
    (∀ (args : Args) (client : Client) (fs : FS) (e : GError),
      client.loginResult = .ok () →
      client.getActivities 0 args.count = .error e →
      mainRun args client fs = ⟨1, fs.mkdirOut, 0, 0⟩) := by
  constructor
  · intro args client fs e h
    simp [mainRun, h]
  · intro args client fs e hl ha
    simp [mainRun, hl, ha]

/-- Fixture for C8: a client whose login raises an authentication error. -/
def c8ClientAuthFail : Client :=
  ⟨.error (GError.auth "bad credentials".data), fun _ _ => .ok [],
   fun _ _ => .error (GError.other []), fun _ => .error (GError.other []),
   fun _ => .error (GError.other [])⟩

/-- Fixture for C8: a client whose activity-list fetch raises a connection
error. -/
def c8ClientListFail : Client :=
  ⟨.ok (), fun _ _ => .error (GError.conn "timeout".data),
   fun _ _ => .error (GError.other []), fun _ => .error (GError.other []),
   fun _ => .error (GError.other [])⟩

theorem fatal_errors_abort_run_witness :
    c8ClientAuthFail.loginResult = .error (GError.auth "bad credentials".data) ∧
    mainRun ⟨3, "gpx".data, true⟩ c8ClientAuthFail ⟨[], false⟩ =
      ⟨1, FS.mkdirOut ⟨[], false⟩, 0, 0⟩ ∧
    c8ClientListFail.getActivities 0 3 = .error (GError.conn "timeout".data) ∧
    mainRun ⟨3, "gpx".data, true⟩ c8ClientListFail ⟨[], false⟩ =
      ⟨1, FS.mkdirOut ⟨[], false⟩, 0, 0⟩ :=
  ⟨rfl,
   fatal_errors_abort_run.1 ⟨3, "gpx".data, true⟩ c8ClientAuthFail ⟨[], false⟩
     (GError.auth "bad credentials".data) rfl,
   rfl,
   fatal_errors_abort_run.2 ⟨3, "gpx".data, true⟩ c8ClientListFail ⟨[], false⟩
     (GError.conn "timeout".data) rfl rfl⟩

/-- Fixture for C2: an activity whose `startTimeLocal` is present but not
in the expected timestamp format. -/
def c2ActGarbage : Activity := ⟨"1".data, none, some "garbage".data⟩

/-- C2 counterexample: an activity with a present but unparseable
`startTimeLocal` is not defaulted to the epoch and filtered out — the
filter raises (`datetime.strptime` raises `ValueError`, modelled by the
error result), which the outer handler of `main` turns into an aborted
run. -/
theorem filter_unparseable_raises_cex :
    filterActivities ⟨2024, 3, 15, 0, 0, 0⟩ [c2ActGarbage] =
      .error (GError.other "ValueError".data) ∧
    filterActivities ⟨2024, 3, 15, 0, 0, 0⟩ [c2ActGarbage] ≠ .ok [] := by
  decide

/-- C2 (amended): when every activity's defaulted timestamp parses, the
incremental filter keeps exactly those whose parsed `startTimeLocal` is
strictly later than the watermark; an activity missing the
`startTimeLocal` key defaults to the epoch timestamp; and anything the
filter keeps has a parseable timestamp strictly later than the watermark
(so an epoch-defaulted activity is filtered out whenever the watermark is
on or after 1970-01-01). An activity with a present but unparseable
timestamp instead makes the filter raise. -/
theorem filter_watermark_amended :
    (∀ (wm : DateTime) (acts : List Activity),
      (∀ a ∈ acts, (activityDt a).isSome) →
      filterActivities wm acts =
        .ok (acts.filter
          (fun a => decide (wm.key < ((activityDt a).getD epochDT).key)))) ∧
    (∀ a : Activity, a.startTimeLocal = none → activityDt a = some epochDT) ∧
    (∀ (wm : DateTime) (acts res : List Activity),
      filterActivities wm acts = .ok res →
      ∀ a ∈ res, a ∈ acts ∧ ∃ dt, activityDt a = some dt ∧ wm.key < dt.key) := by
  refine ⟨?_, ?_, ?_⟩
  · intro wm acts
    induction acts with
    | nil => intro _; rfl
    | cons a rest ih =>
      intro h
      have hs : (activityDt a).isSome := h a (List.mem_cons_self a rest)
      obtain ⟨dt, hdt⟩ := Option.isSome_iff_exists.mp hs
      have ih2 := ih (fun b hb => h b (List.mem_cons_of_mem a hb))
      simp only [filterActivities, hdt, ih2, List.filter_cons, Option.getD_some,
        decide_eq_true_eq]
  · intro a h
    simp only [activityDt, h, Option.getD_none]
    decide
  · intro wm acts
    induction acts with
    | nil =>
      intro res h a ha
      simp only [filterActivities] at h
      injection h with h
      subst h
      exact absurd ha (List.not_mem_nil a)
    | cons b rest ih =>
      intro res h a ha
      simp only [filterActivities] at h
      rcases hdt : activityDt b with _ | dt
      · rw [hdt] at h
        cases h
      · rw [hdt] at h
        rcases hrec : filterActivities wm rest with e | l
        · rw [hrec] at h
          cases h
        · rw [hrec] at h
          injection h with h
          subst h
          by_cases hk : wm.key < dt.key
          · rw [if_pos hk] at ha
            rcases List.mem_cons.mp ha with rfl | hmem
            · exact ⟨List.mem_cons_self _ _, dt, hdt, hk⟩
            · obtain ⟨hin, dt2, h1, h2⟩ := ih l hrec a hmem
              exact ⟨List.mem_cons_of_mem _ hin, dt2, h1, h2⟩
          · rw [if_neg hk] at ha
            obtain ⟨hin, dt2, h1, h2⟩ := ih l hrec a ha
            exact ⟨List.mem_cons_of_mem _ hin, dt2, h1, h2⟩

/-- Fixture for the C2 witness: an activity strictly later than the
watermark date. -/
def c2ActLater : Activity := ⟨"1".data, none, some "2024-03-16 08:00:00".data⟩

theorem filter_watermark_amended_witness :
    ([c2ActLater].all (fun a => (activityDt a).isSome)) = true ∧
    filterActivities ⟨2024, 3, 15, 0, 0, 0⟩ [c2ActLater] =
      .ok ([c2ActLater].filter
        (fun a => decide ((DateTime.mk 2024 3 15 0 0 0).key <
          ((activityDt a).getD epochDT).key))) ∧
    activityDt ⟨"2".data, none, none⟩ = some epochDT :=
  ⟨by decide,
   filter_watermark_amended.1 ⟨2024, 3, 15, 0, 0, 0⟩ [c2ActLater] (by decide),
   filter_watermark_amended.2.1 ⟨"2".data, none, none⟩ rfl⟩

theorem maxDate_mem (d : DateTime) (ds : List DateTime) : maxDate d ds ∈ d :: ds := by
  induction ds generalizing d with
  | nil => simp [maxDate]
  | cons x ds ih =>
    simp only [maxDate]
    rcases List.mem_cons.mp (ih (if d.key < x.key then x else d)) with h | h
    · rw [h]
      by_cases hk : d.key < x.key
      · rw [if_pos hk]
        exact List.mem_cons_of_mem _ (List.mem_cons_self _ _)
      · rw [if_neg hk]
        exact List.mem_cons_self _ _
    · exact List.mem_cons_of_mem _ (List.mem_cons_of_mem _ h)

theorem maxDate_ub (d : DateTime) (ds : List DateTime) :
    ∀ x ∈ d :: ds, x.key ≤ (maxDate d ds).key := by
  induction ds generalizing d with
  | nil =>
    intro x hx
    rcases List.mem_cons.mp hx with rfl | h
    · exact le_refl _
    · exact absurd h (List.not_mem_nil x)
  | cons y ds ih =>
    intro x hx
    simp only [maxDate]
    have hacc : d.key ≤ (if d.key < y.key then y else d).key ∧
        y.key ≤ (if d.key < y.key then y else d).key := by
      by_cases hk : d.key < y.key
      · rw [if_pos hk]
        exact ⟨Nat.le_of_lt hk, le_refl _⟩
      · rw [if_neg hk]
        exact ⟨le_refl _, Nat.le_of_not_lt hk⟩
    have hm := ih (if d.key < y.key then y else d)
    rcases List.mem_cons.mp hx with rfl | hx2
    · exact le_trans hacc.1 (hm _ (List.mem_cons_self _ _))
    · rcases List.mem_cons.mp hx2 with rfl | hx3
      · exact le_trans hacc.2 (hm _ (List.mem_cons_self _ _))
      · exact hm x (List.mem_cons_of_mem _ hx3)

/-- The dates the watermark scan decodes: one per file matching the
extension whose name parses. -/
def decodedDates (names : List Str) (format_ext : Str) : List DateTime :=
  (names.filter (fun f => format_ext.isSuffixOf f)).filterMap decode_date

/-- C3: the watermark resolver returns `none` for a missing or unreadable
directory and whenever no matching filename decodes to a date, never an
error; and whenever it returns a date it is the maximum of the decoded
dates (a decoded date, at least as late as every decoded date). With files
`2024-01-01_x_1.fit` and `2024-03-15_y_2.fit` it returns 2024-03-15. -/
theorem watermark_resolver_max_or_none :
    (∀ format_ext : Str, get_last_activity_date none format_ext = none) ∧
    (∀ (names : List Str) (format_ext : Str), decodedDates names format_ext = [] →
      get_last_activity_date (some names) format_ext = none) ∧
    (∀ (names : List Str) (format_ext : Str) (t : DateTime),
      get_last_activity_date (some names) format_ext = some t →
      t ∈ decodedDates names format_ext ∧
        ∀ x ∈ decodedDates names format_ext, x.key ≤ t.key) ∧
    (∀ (names : List Str) (format_ext : Str), decodedDates names format_ext ≠ [] →
      ∃ t, get_last_activity_date (some names) format_ext = some t) ∧
    get_last_activity_date
        (some ["2024-01-01_x_1.fit".data, "2024-03-15_y_2.fit".data]) ".fit".data =
      some ⟨2024, 3, 15, 0, 0, 0⟩ := by
  refine ⟨fun _ => rfl, ?_, ?_, ?_, by decide⟩
  · intro names fe h
    rw [decodedDates] at h
    simp only [get_last_activity_date]
    by_cases hf : names.filter (fun f => fe.isSuffixOf f) = []
    · rw [if_pos hf]
    · rw [if_neg hf, h]
  · intro names fe t h
    simp only [get_last_activity_date] at h
    by_cases hf : names.filter (fun f => fe.isSuffixOf f) = []
    · rw [if_pos hf] at h
      cases h
    · rw [if_neg hf] at h
      rcases hm : (names.filter (fun f => fe.isSuffixOf f)).filterMap decode_date
        with _ | ⟨d, ds⟩
      · rw [hm] at h
        cases h
      · rw [hm] at h
        injection h with h
        subst h
        constructor
        · rw [decodedDates, hm]
          exact maxDate_mem d ds
        · intro x hx
          rw [decodedDates, hm] at hx
          exact maxDate_ub d ds x hx
  · intro names fe h
    simp only [get_last_activity_date]
    by_cases hf : names.filter (fun f => fe.isSuffixOf f) = []
    · exfalso
      apply h
      rw [decodedDates, hf]
      rfl
    · rw [if_neg hf]
      rcases hm : (names.filter (fun f => fe.isSuffixOf f)).filterMap decode_date
        with _ | ⟨d, ds⟩
      · exfalso
        apply h
        rw [decodedDates]
        exact hm
      · exact ⟨maxDate d ds, rfl⟩

theorem watermark_resolver_max_or_none_witness :
    get_last_activity_date
        (some ["2024-01-01_x_1.fit".data, "junk.fit".data, "2024-03-15_y_2.fit".data])
        ".fit".data = some ⟨2024, 3, 15, 0, 0, 0⟩ ∧
    (⟨2024, 3, 15, 0, 0, 0⟩ : DateTime) ∈
      decodedDates ["2024-01-01_x_1.fit".data, "junk.fit".data, "2024-03-15_y_2.fit".data]
        ".fit".data ∧
    decodedDates ["nope.txt".data] ".fit".data = [] ∧
    get_last_activity_date (some ["nope.txt".data]) ".fit".data = none :=
  ⟨by decide,
   (watermark_resolver_max_or_none.2.2.1
      ["2024-01-01_x_1.fit".data, "junk.fit".data, "2024-03-15_y_2.fit".data]
      ".fit".data ⟨2024, 3, 15, 0, 0, 0⟩ (by decide)).1,
   by decide,
   watermark_resolver_max_or_none.2.1 ["nope.txt".data] ".fit".data (by decide)⟩

theorem strptimeYmd_time (cs : Str) (t : DateTime) (h : strptimeYmd cs = some t) :
    t.hour = 0 ∧ t.minute = 0 ∧ t.second = 0 := by
  unfold strptimeYmd at h
  split at h
  · split at h
    · injection h with h
      subst h
      exact ⟨rfl, rfl, rfl⟩
    · cases h
  · cases h

theorem get_last_mem (names : List Str) (fe : Str) (t : DateTime)
    (h : get_last_activity_date (some names) fe = some t) :
    ∃ f, decode_date f = some t := by
  simp only [get_last_activity_date] at h
  by_cases hf : names.filter (fun f => fe.isSuffixOf f) = []
  · rw [if_pos hf] at h
    cases h
  · rw [if_neg hf] at h
    rcases hm : (names.filter (fun f => fe.isSuffixOf f)).filterMap decode_date
      with _ | ⟨d, ds⟩
    · rw [hm] at h
      cases h
    · rw [hm] at h
      injection h with h
      subst h
      have hmem := maxDate_mem d ds
      rw [← hm] at hmem
      obtain ⟨f, _, hf2⟩ := List.mem_filterMap.mp hmem
      exact ⟨f, hf2⟩

theorem get_last_time_zero (listing : Option (List Str)) (fe : Str) (wm : DateTime)
    (h : get_last_activity_date listing fe = some wm) :
    wm.hour = 0 ∧ wm.minute = 0 ∧ wm.second = 0 := by
  cases listing with
  | none => cases h
  | some names =>
    obtain ⟨f, hf⟩ := get_last_mem names fe wm h
    rw [decode_date] at hf
    exact strptimeYmd_time _ _ hf

/-- C10: the watermark carries only a date — the resolver always returns a
midnight timestamp — while the incremental filter compares full parsed
timestamps, so an activity on the watermark's own calendar day whose time
of day is strictly after midnight passes the filter and is downloaded again
on each incremental run. -/
theorem same_day_refetch (listing : Option (List Str)) (format_ext : Str)
    (wm : DateTime) (a : Activity) (dt : DateTime)
    (hw : get_last_activity_date listing format_ext = some wm)
    (hdt : activityDt a = some dt)
    (hy : dt.year = wm.year) (hm : dt.month = wm.month) (hd : dt.day = wm.day)
    (hpos : 0 < dt.hour ∨ 0 < dt.minute ∨ 0 < dt.second) :
    filterActivities wm [a] = .ok [a] := by
  obtain ⟨h0, h1, h2⟩ := get_last_time_zero listing format_ext wm hw
  have hk : wm.key < dt.key := by
    unfold DateTime.key
    rw [hy, hm, hd, h0, h1, h2]
    rcases hpos with hp | hp | hp <;> omega
  simp only [filterActivities, hdt]
  rw [if_pos hk]

theorem same_day_refetch_witness :
    get_last_activity_date (some ["2024-03-15_x_1.fit".data]) ".fit".data =
      some ⟨2024, 3, 15, 0, 0, 0⟩ ∧
    activityDt ⟨"7".data, none, some "2024-03-15 10:00:00".data⟩ =
      some ⟨2024, 3, 15, 10, 0, 0⟩ ∧
    filterActivities ⟨2024, 3, 15, 0, 0, 0⟩
        [⟨"7".data, none, some "2024-03-15 10:00:00".data⟩] =
      .ok [⟨"7".data, none, some "2024-03-15 10:00:00".data⟩] :=
  ⟨by decide, by decide,
   same_day_refetch (some ["2024-03-15_x_1.fit".data]) ".fit".data
     ⟨2024, 3, 15, 0, 0, 0⟩ ⟨"7".data, none, some "2024-03-15 10:00:00".data⟩
     ⟨2024, 3, 15, 10, 0, 0⟩ (by decide) (by decide) rfl rfl rfl
     (Or.inl (by decide))⟩

theorem map_id_of_fix {α : Type} {l : List α} {f : α → α} (h : ∀ c ∈ l, f c = c) :
    l.map f = l := by
  induction l with
  | nil => rfl
  | cons x xs ih =>
    rw [List.map_cons, h x (List.mem_cons_self x xs),
      ih (fun c hc => h c (List.mem_cons_of_mem x hc))]

theorem sanitize_eq (name : Str) :
    sanitize_filename name =
      if (name.map (fun c => if c ∈ invalid_chars then '-' else c)).map
          (fun c => if c = ' ' then '_' else c) = []
      then "Unnamed".data
      else ((name.map (fun c => if c ∈ invalid_chars then '-' else c)).map
          (fun c => if c = ' ' then '_' else c)).take 50 := rfl

theorem sanitize_mem (name : Str) (c : Char) (hc : c ∈ sanitize_filename name) :
    c ∉ invalid_chars ∧ c ≠ ' ' := by
  rw [sanitize_eq] at hc
  split at hc
  · have hu : "Unnamed".data = ['U', 'n', 'n', 'a', 'm', 'e', 'd'] := rfl
    rw [hu] at hc
    simp only [List.mem_cons, List.not_mem_nil, or_false] at hc
    rcases hc with rfl | rfl | rfl | rfl | rfl | rfl | rfl <;> exact ⟨by decide, by decide⟩
  · have hc2 := List.mem_of_mem_take hc
    rw [List.map_map] at hc2
    obtain ⟨x, _, rfl⟩ := List.mem_map.mp hc2
    simp only [Function.comp_apply]
    by_cases h1 : x ∈ invalid_chars
    · rw [if_pos h1]
      exact ⟨by decide, by decide⟩
    · rw [if_neg h1]
      by_cases h2 : x = ' '
      · rw [if_pos h2]
        exact ⟨by decide, by decide⟩
      · rw [if_neg h2]
        exact ⟨h1, h2⟩

theorem sanitize_len (name : Str) : (sanitize_filename name).length ≤ 50 := by
  rw [sanitize_eq]
  split
  · decide
  · rw [List.length_take]
    exact Nat.min_le_left _ _

theorem sanitize_ne_nil (name : Str) : sanitize_filename name ≠ [] := by
  rw [sanitize_eq]
  split
  · decide
  · rename_i h
    intro hc
    apply h
    rcases List.take_eq_nil_iff.mp hc with h50 | hl
    · exact absurd h50 (by decide)
    · exact hl

theorem sanitize_idem (name : Str) :
    sanitize_filename (sanitize_filename name) = sanitize_filename name := by
  have hmap : (sanitize_filename name).map
      ((fun c => if c = ' ' then '_' else c) ∘
        (fun c => if c ∈ invalid_chars then '-' else c)) = sanitize_filename name := by
    apply map_id_of_fix
    intro c hc
    obtain ⟨h1, h2⟩ := sanitize_mem name c hc
    simp only [Function.comp_apply]
    rw [if_neg h1, if_neg h2]
  rw [sanitize_eq (sanitize_filename name), List.map_map, hmap,
    if_neg (sanitize_ne_nil name)]
  exact List.take_of_length_le (sanitize_len name)

/-- C5: `sanitize_filename` is total by construction (a Lean function on
all strings), idempotent, returns at most 50 characters, and its output
never contains one of the forbidden characters or a space. -/
theorem sanitize_idempotent_bounded :
    (∀ name : Str, sanitize_filename (sanitize_filename name) = sanitize_filename name) ∧
    (∀ name : Str, (sanitize_filename name).length ≤ 50) ∧
    (∀ (name : Str) (c : Char), c ∈ sanitize_filename name →
      c ∉ invalid_chars ∧ c ≠ ' ') :=
  ⟨sanitize_idem, sanitize_len, sanitize_mem⟩

theorem sanitize_idempotent_bounded_witness :
    sanitize_filename (sanitize_filename "My Run: a/b?".data) =
      sanitize_filename "My Run: a/b?".data ∧
    (sanitize_filename "My Run: a/b?".data).length ≤ 50 ∧
    '_' ∈ sanitize_filename "My Run: a/b?".data ∧
    '_' ∉ invalid_chars ∧ '_' ≠ ' ' :=
  ⟨sanitize_idempotent_bounded.1 "My Run: a/b?".data,
   sanitize_idempotent_bounded.2.1 "My Run: a/b?".data,
   by decide,
   sanitize_idempotent_bounded.2.2 "My Run: a/b?".data '_' (by decide)⟩

theorem parse4Digits_shape (cs : Str) (y : Nat) (r : Str)
    (h : parse4Digits cs = some (y, r)) :
    ∃ pre, cs = pre ++ r ∧ ∀ c ∈ pre, c.isDigit := by
  rcases cs with _ | ⟨a, _ | ⟨b, _ | ⟨c, _ | ⟨d, rest⟩⟩⟩⟩
  · simp [parse4Digits] at h
  · simp [parse4Digits] at h
  · simp [parse4Digits] at h
  · simp [parse4Digits] at h
  · simp only [parse4Digits] at h
    by_cases hd : (a.isDigit && b.isDigit && c.isDigit && d.isDigit) = true
    · rw [if_pos hd] at h
      injection h with h
      injection h with h1 h2
      subst h2
      simp only [Bool.and_eq_true] at hd
      refine ⟨[a, b, c, d], rfl, ?_⟩
      intro x hx
      simp only [List.mem_cons, List.not_mem_nil, or_false] at hx
      rcases hx with rfl | rfl | rfl | rfl
      · exact hd.1.1.1
      · exact hd.1.1.2
      · exact hd.1.2
      · exact hd.2
    · rw [if_neg hd] at h
      cases h

theorem parse2Digits_shape (cs : Str) (v : Nat) (r : Str)
    (h : parse2Digits cs = some (v, r)) :
    ∃ pre, cs = pre ++ r ∧ ∀ c ∈ pre, c.isDigit := by
  rcases cs with _ | ⟨a, _ | ⟨b, rest⟩⟩
  · simp [parse2Digits] at h
  · simp only [parse2Digits] at h
    by_cases ha : a.isDigit = true
    · rw [if_pos ha] at h
      injection h with h
      injection h with h1 h2
      subst h2
      refine ⟨[a], rfl, ?_⟩
      intro x hx
      simp only [List.mem_cons, List.not_mem_nil, or_false] at hx
      rcases hx with rfl
      exact ha
    · rw [if_neg ha] at h
      cases h
  · simp only [parse2Digits] at h
    by_cases hab : (a.isDigit && b.isDigit) = true
    · rw [if_pos hab] at h
      injection h with h
      injection h with h1 h2
      subst h2
      simp only [Bool.and_eq_true] at hab
      refine ⟨[a, b], rfl, ?_⟩
      intro x hx
      simp only [List.mem_cons, List.not_mem_nil, or_false] at hx
      rcases hx with rfl | rfl
      · exact hab.1
      · exact hab.2
    · rw [if_neg hab] at h
      by_cases ha : a.isDigit = true
      · rw [if_pos ha] at h
        injection h with h
        injection h with h1 h2
        subst h2
        refine ⟨[a], rfl, ?_⟩
        intro x hx
        simp only [List.mem_cons, List.not_mem_nil, or_false] at hx
        rcases hx with rfl
        exact ha
      · rw [if_neg ha] at h
        cases h

theorem parseYmdCore_shape (cs : Str) (v : Nat × Nat × Nat) (r : Str)
    (h : parseYmdCore cs = some (v, r)) :
    ∃ pre, cs = pre ++ r ∧ ∀ c ∈ pre, c.isDigit ∨ c = '-' := by
  unfold parseYmdCore at h
  split at h
  · cases h
  · rename_i y r1 h4
    split at h
    · rename_i r2
      split at h
      · cases h
      · rename_i m r3 h2
        split at h
        · rename_i r4
          split at h
          · cases h
          · rename_i dd r5 h3
            injection h with h
            injection h with hv hr
            subst hr
            obtain ⟨p1, hcs1, hd1⟩ := parse4Digits_shape cs y ('-' :: r2) h4
            obtain ⟨p2, hcs2, hd2⟩ := parse2Digits_shape r2 m ('-' :: r4) h2
            obtain ⟨p3, hcs3, hd3⟩ := parse2Digits_shape r4 dd r5 h3
            refine ⟨p1 ++ '-' :: p2 ++ '-' :: p3, ?_, ?_⟩
            · rw [hcs1, hcs2, hcs3]
              simp
            · intro c hc
              rcases List.mem_append.mp hc with h | h
              · rcases List.mem_append.mp h with h | h
                · exact Or.inl (hd1 c h)
                · rcases List.mem_cons.mp h with rfl | h
                  · exact Or.inr rfl
                  · exact Or.inl (hd2 c h)
              · rcases List.mem_cons.mp h with rfl | h
                · exact Or.inr rfl
                · exact Or.inl (hd3 c h)
        · cases h
    · cases h

theorem strptimeYmd_chars (d : Str) (t : DateTime) (h : strptimeYmd d = some t) :
    ∀ c ∈ d, c.isDigit ∨ c = '-' := by
  unfold strptimeYmd at h
  split at h
  · rename_i y m dd hp
    obtain ⟨pre, hcs, hchars⟩ := parseYmdCore_shape d (y, m, dd) [] hp
    rw [List.append_nil] at hcs
    intro c hc
    exact hchars c (hcs ▸ hc)
  · cases h

theorem takeWhile_append_stop (p : Char → Bool) (pre : Str) (x : Char) (rest : Str)
    (hpre : ∀ c ∈ pre, p c = true) (hx : p x = false) :
    (pre ++ x :: rest).takeWhile p = pre := by
  induction pre with
  | nil =>
    simp [List.nil_append, List.takeWhile_cons, hx]
  | cons a pre ih =>
    simp only [List.cons_append, List.takeWhile_cons,
      hpre a (List.mem_cons_self a pre), if_true]
    rw [ih (fun c hc => hpre c (List.mem_cons_of_mem a hc))]

theorem encode_eq_append (date n i e : Str) :
    ∃ tail, encode date n i e = date ++ '_' :: tail := by
  unfold encode name_part
  by_cases hn : n = []
  · rw [if_pos hn]
    exact ⟨i ++ '.' :: e, by simp⟩
  · rw [if_neg hn]
    exact ⟨n ++ '_' :: i ++ '.' :: e, by simp⟩

/-- C6: round trip of the filename codec — for every date string that
`strptime('%Y-%m-%d')` accepts, every name, identifier and extension, the
segment of `encode(d, n, i, e)` before the first underscore is exactly `d`
(a parseable date string contains no underscore, and the encoder places an
underscore right after the date even when the name is empty), so decoding
the date from the encoded filename gives `d`'s date back. The spec's
proviso about date-shaped name segments is not even needed: the decoder
stops at the first underscore, which always closes the date segment. -/
theorem filename_codec_roundtrip (d n i e : Str) (t : DateTime)
    (h : strptimeYmd d = some t) :
    (encode d n i e).takeWhile (fun c => decide (c ≠ '_')) = d ∧
    decode_date (encode d n i e) = some t := by
  have hchars := strptimeYmd_chars d t h
  obtain ⟨tail, henc⟩ := encode_eq_append d n i e
  have htw : (encode d n i e).takeWhile (fun c => decide (c ≠ '_')) = d := by
    rw [henc]
    apply takeWhile_append_stop
    · intro c hc
      rcases hchars c hc with hdg | rfl
      · simp only [decide_eq_true_eq]
        intro heq
        rw [heq] at hdg
        exact absurd hdg (by decide)
      · decide
    · decide
  refine ⟨htw, ?_⟩
  unfold decode_date
  rw [htw]
  exact h

/-- Fixture for the C6 witness. -/
def c6Date : Str := "2024-03-15".data

theorem filename_codec_roundtrip_witness :
    strptimeYmd c6Date = some ⟨2024, 3, 15, 0, 0, 0⟩ ∧
    (encode c6Date "Morning_Run".data "123".data "fit".data).takeWhile
        (fun c => decide (c ≠ '_')) = c6Date ∧
    decode_date (encode c6Date "Morning_Run".data "123".data "fit".data) =
      some ⟨2024, 3, 15, 0, 0, 0⟩ :=
  ⟨by decide,
   (filename_codec_roundtrip c6Date "Morning_Run".data "123".data "fit".data
      ⟨2024, 3, 15, 0, 0, 0⟩ (by decide)).1,
   (filename_codec_roundtrip c6Date "Morning_Run".data "123".data "fit".data
      ⟨2024, 3, 15, 0, 0, 0⟩ (by decide)).2⟩
